import Mathlib

/-!
# Verification of the watermark compositor (`src/components/PhotoWatermarker.tsx`)

This file gives a shallow embedding of the watermark-compositing engine of the
repository and proves/refutes the specification's claims about it.

Modelling conventions:
* JavaScript numbers are idealised as exact rationals (`ℚ`); `Math.floor` is `Int.floor`.
* The external canvas text-measurement engine (`ctx.measureText`) is an arbitrary
  function parameter `measure : ℚ → Bool → String → ℚ` mapping the current font size,
  the bold flag and a string to a pixel width, mirroring how the source sets `ctx.font`
  before measuring.
* Locale time/date formatting (`toLocaleTimeString` / `toLocaleDateString`) and JPEG
  encoding (`canvas.toDataURL`) are external collaborators, modelled as opaque function
  parameters.
* The mutable world visible to the compositor (the decoded source image and the canvas
  element) is an explicit state record; every `ctx` call becomes an appended draw
  command on the canvas component of the state.
-/

set_option linter.unusedVariables false

/-- Model of JavaScript `text.split(' ')` (split on every single space character,
keeping empty segments; the empty string yields `[""]`), as used at
`PhotoWatermarker.tsx` line 69. -/
def splitWordsAux : List Char → List Char → List String
  | [], acc => [String.mk acc.reverse]
  | c :: cs, acc =>
      if c = ' ' then String.mk acc.reverse :: splitWordsAux cs []
      else splitWordsAux cs (c :: acc)

/-- `splitWords s` models `s.split(' ')` in JavaScript. -/
def splitWords (s : String) : List String := splitWordsAux s.data []

/-- The loop of `wrapText` (`PhotoWatermarker.tsx` lines 71–82): `currentLine` starts
as the first word; each further word is tentatively appended, committed when the
measured tentative width is `< maxWidth`, otherwise the current line is closed and the
word starts a new line; the final open line is pushed unconditionally. -/
def wrapGo (m : String → ℚ) (maxWidth : ℚ) : String → List String → List String
  | currentLine, [] => [currentLine]
  | currentLine, word :: rest =>
      if m (currentLine ++ " " ++ word) < maxWidth then
        wrapGo m maxWidth (currentLine ++ " " ++ word) rest
      else
        currentLine :: wrapGo m maxWidth word rest

/-- `wrapText` (`PhotoWatermarker.tsx` lines 67–84): greedy word-level wrap of `text`
at width budget `maxWidth`, measuring with font size `fontSize` and style `isBold`. -/
def wrapText (measure : ℚ → Bool → String → ℚ) (maxWidth : ℚ)
    (text : String) (fontSize : ℚ) (isBold : Bool) : List String :=
  match splitWords text with
  | [] => []
  | w :: ws => wrapGo (measure fontSize isBold) maxWidth w ws

/-- Join a list of lines with single spaces (used to state the wrap-reversibility
property). -/
def joinSp : List String → String
  | [] => ""
  | [s] => s
  | s :: rest => s ++ " " ++ joinSp rest

/-- `baseFontSize = Math.max(24, Math.floor(img.width * 0.035))`
(`PhotoWatermarker.tsx` line 53). -/
def baseFontSize (W : ℕ) : ℚ := ((max 24 ⌊(W : ℚ) * 0.035⌋ : ℤ) : ℚ)

/-- `timeFontSize = Math.floor(baseFontSize * 1.5)` (line 54). -/
def timeFontSize (W : ℕ) : ℚ := ((⌊baseFontSize W * 1.5⌋ : ℤ) : ℚ)

/-- `smallFontSize = Math.floor(baseFontSize * 0.7)` (line 55). -/
def smallFontSize (W : ℕ) : ℚ := ((⌊baseFontSize W * 0.7⌋ : ℤ) : ℚ)

/-- `padding = Math.floor(baseFontSize * 1.0)` (line 56). -/
def padding (W : ℕ) : ℚ := ((⌊baseFontSize W * 1.0⌋ : ℤ) : ℚ)

/-- `maxWidth = canvas.width * 0.9` (line 63); the spec calls it `maxTextWidth`. -/
def maxWidth (W : ℕ) : ℚ := (W : ℚ) * 0.9

/-- `lineHeight = baseFontSize * 1.3` (line 89). -/
def lineHeight (W : ℕ) : ℚ := baseFontSize W * 1.3

/-- `smallLineHeight = smallFontSize * 1.4` (line 90). -/
def smallLineHeight (W : ℕ) : ℚ := smallFontSize W * 1.4

/-- `totalTextHeight` (lines 92–97), as a function of the image width and the number
of wrapped address lines. -/
def totalTextHeight (W n : ℕ) : ℚ :=
  (timeFontSize W * 1.4) + (smallLineHeight W) + ((n : ℚ) * lineHeight W) +
    (smallLineHeight W) + (padding W * 2)

/-- `gradientHeight = totalTextHeight + padding` (line 100). -/
def gradientHeight (W n : ℕ) : ℚ := totalTextHeight W n + padding W

/-- `GeoLocation` (`types.ts`): coordinates are idealised as exact rationals. -/
structure GeoLocation where
  lat : ℚ
  lng : ℚ
  accuracy : ℚ
  timestamp : ℤ
  address : Option String
deriving DecidableEq

/-- `CapturedImage` (`types.ts`); `timestamp : Date` is an opaque instant (`ℤ`),
formatted only through the external locale formatter. -/
structure CapturedImage where
  originalDataUrl : String
  processedDataUrl : Option String
  location : Option GeoLocation
  timestamp : ℤ
  personnelName : String
  deviceName : String
deriving DecidableEq

/-- A decoded bitmap (the `Image` object `img`): pixel dimensions plus an opaque
pixel payload. -/
structure Bitmap where
  width : ℕ
  height : ℕ
  pixels : List ℕ
deriving DecidableEq

/-- The fill style of a rect: the linear gradient of lines 101–107 (start/end points
and color stops). -/
structure GradientStyle where
  x0 : ℚ
  y0 : ℚ
  x1 : ℚ
  y1 : ℚ
  stops : List (ℚ × String)
deriving DecidableEq

/-- One drawing command issued to the 2D context; `fillText` records the `ctx` state
(font size, bold flag, fill color) in effect at the call. -/
inductive DrawCmd where
  | drawImage (bmp : Bitmap) (x y : ℚ)
  | fillRect (x y w h : ℚ) (style : GradientStyle)
  | fillText (text : String) (x y : ℚ) (fontSize : ℚ) (bold : Bool) (color : String)
deriving DecidableEq

/-- The canvas element: its dimensions and the drawing commands applied since the
last dimension reset (setting `canvas.width/height` clears the canvas). -/
structure Canvas where
  width : ℕ
  height : ℕ
  cmds : List DrawCmd
deriving DecidableEq

/-- The mutable world visible to one compositor invocation: the decoded source image
and the canvas element referenced by `canvasRef`. -/
structure CompositorState where
  originalBitmap : Bitmap
  canvas : Canvas
deriving DecidableEq

/-- Left-pad the decimal digits of `n` with zeros to 6 places. -/
def pad6 (n : ℕ) : String :=
  let s := toString n
  String.mk (List.replicate (6 - s.length) '0') ++ s

/-- Format a nonnegative rational with 6 decimal digits (round to the nearest
multiple of `10 ^ (-6)`, ties upward). -/
def toFixed6Abs (q : ℚ) : String :=
  let n := (⌊q * 1000000 + 1/2⌋).toNat
  toString (n / 1000000) ++ "." ++ pad6 (n % 1000000)

/-- Model of JavaScript `x.toFixed(6)` on an idealised (rational) number: round the
magnitude to the nearest multiple of `10 ^ (-6)` (ties away from zero) and prefix the
sign (ECMA-262 Number.prototype.toFixed). -/
def toFixed6 (q : ℚ) : String :=
  if q < 0 then "-" ++ toFixed6Abs (-q) else toFixed6Abs q

/-- `coordsStr` (`PhotoWatermarker.tsx` lines 43–46). -/
def coordsStrOf (image : CapturedImage) : String :=
  match image.location with
  | some loc => toFixed6 loc.lat ++ ", " ++ toFixed6 loc.lng
  | none => ""

/-- `addressStr = image.location?.address || "Đang cập nhật địa chỉ..."` (line 48):
optional chaining plus the falsy-`||` fallback (the empty string is falsy). -/
def addressStrOf (image : CapturedImage) : String :=
  match image.location with
  | some loc =>
      match loc.address with
      | some a => if a = "" then "Đang cập nhật địa chỉ..." else a
      | none => "Đang cập nhật địa chỉ..."
  | none => "Đang cập nhật địa chỉ..."

/-- `personStr` (line 49). -/
def personStrOf (image : CapturedImage) : String :=
  "Người chụp: " ++ image.personnelName

/-- `deviceStr` (line 50). -/
def deviceStrOf (image : CapturedImage) : String :=
  "Thiết bị: " ++ image.deviceName

/-- `fullTimeStr` (lines 32–41), with the locale formatters abstracted. -/
def fullTimeStrOf (fmtDate fmtTime : ℤ → String) (image : CapturedImage) : String :=
  fmtTime image.timestamp ++ " - " ++ fmtDate image.timestamp

/-- The wrapped address lines: `wrapText(addressStr, baseFontSize, true)` (line 86). -/
def addressLinesOf (measure : ℚ → Bool → String → ℚ) (W : ℕ)
    (image : CapturedImage) : List String :=
  wrapText measure (maxWidth W) (addressStrOf image) (baseFontSize W) true

/-- The gradient of lines 101–107: from `(0, H - gradientHeight)` to `(0, H)` with
stops transparent → 50% black → 90% black. -/
def gradStyle (H gh : ℚ) : GradientStyle :=
  { x0 := 0, y0 := H - gh, x1 := 0, y1 := H,
    stops := [(0, "rgba(0, 0, 0, 0)"), (0.2, "rgba(0, 0, 0, 0.5)"),
              (1, "rgba(0, 0, 0, 0.9)")] }

/-- The reverse-iterated address drawing loop (lines 127–130): draw each line at the
running `currentY`, decrementing by `lineHeight` after each; returns the commands and
the final `currentY`.  The caller passes `addressLines.reverse` since the source
iterates `i` from `addressLines.length - 1` down to `0`. -/
def addrCmds (anchor lh fs : ℚ) : List String → ℚ → List DrawCmd × ℚ
  | [], y => ([], y)
  | s :: rest, y =>
      let t := addrCmds anchor lh fs rest (y - lh)
      (DrawCmd.fillText s anchor y fs true "#ffffff" :: t.1, t.2)

/-- The compositor (`img.onload`, `PhotoWatermarker.tsx` lines 23–149): sets the
canvas to the image's dimensions, draws the image, computes the metadata strings and
layout, paints the gradient panel and the four text groups bottom-up, and exports a
JPEG data URL at quality 0.85. -/
def composite (measure : ℚ → Bool → String → ℚ) (fmtDate fmtTime : ℤ → String)
    (encode : Canvas → ℚ → String) (image : CapturedImage)
    (st : CompositorState) : CompositorState × String :=
  let img := st.originalBitmap
  let W := img.width
  let H := img.height
  let fullTimeStr := fullTimeStrOf fmtDate fmtTime image
  let coordsStr := coordsStrOf image
  let addressLines := addressLinesOf measure W image
  let n := addressLines.length
  let gh := gradientHeight W n
  let rightAnchor : ℚ := (W : ℚ) - padding W
  let y0 : ℚ := (H : ℚ) - padding W
  let addrDraw := addrCmds rightAnchor (lineHeight W) (baseFontSize W)
    addressLines.reverse (y0 - smallLineHeight W)
  let cmds : List DrawCmd :=
    DrawCmd.drawImage img 0 0 ::
    DrawCmd.fillRect 0 ((H : ℚ) - gh) (W : ℚ) gh (gradStyle (H : ℚ) gh) ::
    DrawCmd.fillText coordsStr rightAnchor y0 (smallFontSize W) false "#cbd5e1" ::
    (addrDraw.1 ++
      [DrawCmd.fillText (personStrOf image ++ " | " ++ deviceStrOf image)
        rightAnchor addrDraw.2 (smallFontSize W) false "#fbbf24",
       DrawCmd.fillText fullTimeStr rightAnchor
        (addrDraw.2 - smallLineHeight W - baseFontSize W * 0.2)
        (timeFontSize W) true "#38bdf8"])
  let cv : Canvas := { width := W, height := H, cmds := cmds }
  ({ st with canvas := cv }, encode cv 0.85)

/-- Extract the painted text lines, in order, as (text, x, y) triples. -/
def textCmds (cmds : List DrawCmd) : List (String × ℚ × ℚ) :=
  cmds.filterMap fun c =>
    match c with
    | DrawCmd.fillText s x y _ _ _ => some (s, x, y)
    | _ => none

/-- The natural number underlying `baseFontSize` (helper for proofs). -/
def baseFontSizeNat (W : ℕ) : ℕ := max 24 (W * 35 / 1000)

/-- Modelled from the spec: "the original whitespace-normalized input string" — the
space-separated words of the input with empty words (i.e. runs of consecutive
spaces) dropped, rejoined with single spaces. -/
def specNormalizeWS (s : String) : String :=
  joinSp ((splitWords s).filter (fun w => w ≠ ""))

/-! ## Helper lemmas -/

/-- Floor of a natural scaled by a nonnegative rational factor is natural division. -/
theorem floor_scale (a p q : ℕ) :
    (⌊(a : ℚ) * ((p : ℚ) / (q : ℚ))⌋ : ℤ) = ((a * p / q : ℕ) : ℤ) := by
  rw [show (a : ℚ) * ((p : ℚ) / (q : ℚ)) = (((a * p : ℕ) : ℚ) / ((q : ℕ) : ℚ)) by
    push_cast; ring]
  rw [Rat.floor_natCast_div_natCast]
  exact (Int.natCast_ediv (a * p) q).symm

theorem baseFontSize_eq (W : ℕ) : baseFontSize W = ((baseFontSizeNat W : ℕ) : ℚ) := by
  have h : (⌊(W : ℚ) * 0.035⌋ : ℤ) = ((W * 35 / 1000 : ℕ) : ℤ) := by
    rw [show ((W : ℚ) * 0.035) = ((W : ℚ) * (((35 : ℕ) : ℚ) / ((1000 : ℕ) : ℚ))) by
      norm_num]
    exact floor_scale W 35 1000
  rw [baseFontSize, h, baseFontSizeNat]
  norm_cast

theorem timeFontSize_eq (W : ℕ) :
    timeFontSize W = ((3 * baseFontSizeNat W / 2 : ℕ) : ℚ) := by
  have h : baseFontSize W * 1.5 =
      ((baseFontSizeNat W : ℕ) : ℚ) * (((3 : ℕ) : ℚ) / ((2 : ℕ) : ℚ)) := by
    rw [baseFontSize_eq]; norm_num
  rw [timeFontSize, h, floor_scale]
  norm_cast
  rw [Nat.mul_comm]

theorem smallFontSize_eq (W : ℕ) :
    smallFontSize W = ((baseFontSizeNat W * 7 / 10 : ℕ) : ℚ) := by
  have h : baseFontSize W * 0.7 =
      ((baseFontSizeNat W : ℕ) : ℚ) * (((7 : ℕ) : ℚ) / ((10 : ℕ) : ℚ)) := by
    rw [baseFontSize_eq]; norm_num
  rw [smallFontSize, h, floor_scale]
  norm_cast

theorem padding_eq (W : ℕ) : padding W = baseFontSize W := by
  have h : baseFontSize W * 1.0 = ((baseFontSizeNat W : ℕ) : ℚ) := by
    rw [baseFontSize_eq]; norm_num
  rw [padding, h, Int.floor_natCast, baseFontSize_eq]
  norm_cast

theorem baseFontSize_ge (W : ℕ) : (24 : ℚ) ≤ baseFontSize W := by
  rw [baseFontSize_eq, baseFontSizeNat]
  exact_mod_cast Nat.le_max_left 24 _

/-- The wrap loop never returns an empty list (the open line is always pushed). -/
theorem wrapGo_ne_nil (m : String → ℚ) (mw : ℚ) (c : String) (ws : List String) :
    wrapGo m mw c ws ≠ [] := by
  induction ws generalizing c with
  | nil => simp [wrapGo]
  | cons w rest ih =>
      rw [wrapGo]
      split
      · exact ih _
      · simp

/-- Every line emitted by the wrap loop either measured below the budget when it was
committed, or is the incoming open line, or is one of the remaining words. -/
theorem wrapGo_mem (m : String → ℚ) (mw : ℚ) (c : String) (ws : List String) :
    ∀ l ∈ wrapGo m mw c ws, m l < mw ∨ l = c ∨ l ∈ ws := by
  induction ws generalizing c with
  | nil => intro l hl; simp [wrapGo] at hl; simp [hl]
  | cons w rest ih =>
      intro l hl
      rw [wrapGo] at hl
      by_cases hc : m (c ++ " " ++ w) < mw
      · rw [if_pos hc] at hl
        rcases ih _ l hl with h | h | h
        · exact Or.inl h
        · subst h; exact Or.inl hc
        · simp [h]
      · rw [if_neg hc] at hl
        rcases List.mem_cons.mp hl with h | h
        · exact Or.inr (Or.inl h)
        · rcases ih _ l h with h2 | h2 | h2
          · exact Or.inl h2
          · simp [h2]
          · simp [h2]

theorem mk_append (a b : List Char) : String.mk a ++ String.mk b = String.mk (a ++ b) :=
  rfl

/-- Joining the wrap loop's output with single spaces reproduces the join of the open
line and the remaining words. -/
theorem joinSp_wrapGo (m : String → ℚ) (mw : ℚ) (c : String) (ws : List String) :
    joinSp (wrapGo m mw c ws) = joinSp (c :: ws) := by
  induction ws generalizing c with
  | nil => rfl
  | cons w rest ih =>
      rw [wrapGo]
      split
      · rw [ih]
        cases rest with
        | nil => simp [joinSp, String.append_assoc]
        | cons r rs => simp [joinSp, String.append_assoc]
      · have hne := wrapGo_ne_nil m mw w rest
        cases hgo : wrapGo m mw w rest with
        | nil => exact absurd hgo hne
        | cons g gs =>
            have : joinSp (c :: g :: gs) = c ++ " " ++ joinSp (g :: gs) := by
              simp [joinSp]
            rw [this, ← hgo, ih]
            cases rest with
            | nil => simp [joinSp]
            | cons r rs => simp [joinSp, String.append_assoc]

theorem splitWordsAux_ne_nil (cs acc : List Char) : splitWordsAux cs acc ≠ [] := by
  induction cs generalizing acc with
  | nil => simp [splitWordsAux]
  | cons c rest ih =>
      rw [splitWordsAux]
      split
      · simp
      · exact ih _

theorem joinSp_splitWordsAux (cs acc : List Char) :
    joinSp (splitWordsAux cs acc) = String.mk acc.reverse ++ String.mk cs := by
  induction cs generalizing acc with
  | nil => simp [splitWordsAux, joinSp, mk_append]
  | cons c rest ih =>
      rw [splitWordsAux]
      by_cases hc : c = ' '
      · rw [if_pos hc]
        have hne := splitWordsAux_ne_nil rest ([] : List Char)
        cases hsp : splitWordsAux rest [] with
        | nil => exact absurd hsp hne
        | cons g gs =>
            have : joinSp (String.mk acc.reverse :: g :: gs) =
                String.mk acc.reverse ++ " " ++ joinSp (g :: gs) := by simp [joinSp]
            rw [this, ← hsp, ih]
            subst hc
            rw [show (" " : String) = String.mk [' '] from rfl]
            rw [show (String.mk (([] : List Char).reverse) ++ String.mk rest) =
              String.mk rest from rfl]
            rw [mk_append, mk_append, mk_append]
            apply congrArg
            simp
      · rw [if_neg hc, ih]
        simp [mk_append]

/-- Rejoining `splitWords s` with single spaces gives back `s` exactly. -/
theorem joinSp_splitWords (s : String) : joinSp (splitWords s) = s := by
  rw [splitWords, joinSp_splitWordsAux]
  cases s
  simp [mk_append, String.mk]

/-- The final `currentY` after the address loop: the start minus one `lineHeight` per
drawn line. -/
theorem addrCmds_snd (a lh fs : ℚ) (ls : List String) (y : ℚ) :
    (addrCmds a lh fs ls y).2 = y - (ls.length : ℚ) * lh := by
  induction ls generalizing y with
  | nil => simp [addrCmds]
  | cons s rest ih =>
      rw [addrCmds]
      show (addrCmds a lh fs rest (y - lh)).2 = _
      rw [ih, List.length_cons]
      push_cast
      ring

/-- The text commands of the address loop: the `k`-th drawn line sits `k` line
heights below the loop's conceptual origin `y`. -/
theorem textCmds_addrCmds (a lh fs : ℚ) (ls : List String) (y : ℚ) (k : ℕ) :
    textCmds (addrCmds a lh fs ls (y - (k : ℚ) * lh)).1 =
      (List.enumFrom k ls).map fun p => (p.2, a, y - (p.1 : ℚ) * lh) := by
  induction ls generalizing k with
  | nil => simp [addrCmds, textCmds]
  | cons s rest ih =>
      rw [addrCmds]
      show textCmds (DrawCmd.fillText s a (y - (k : ℚ) * lh) fs true "#ffffff" ::
        (addrCmds a lh fs rest (y - (k : ℚ) * lh - lh)).1) = _
      have hy : y - (k : ℚ) * lh - lh = y - ((k + 1 : ℕ) : ℚ) * lh := by
        push_cast; ring
      rw [show List.enumFrom k (s :: rest) = (k, s) :: List.enumFrom (k + 1) rest
        from rfl]
      rw [List.map_cons]
      rw [show textCmds (DrawCmd.fillText s a (y - (k : ℚ) * lh) fs true "#ffffff" ::
            (addrCmds a lh fs rest (y - (k : ℚ) * lh - lh)).1) =
          (s, a, y - (k : ℚ) * lh) ::
            textCmds (addrCmds a lh fs rest (y - (k : ℚ) * lh - lh)).1 from rfl]
      rw [hy, ih]

theorem textCmds_nil : textCmds [] = [] := rfl

theorem textCmds_cons_drawImage (b : Bitmap) (x y : ℚ) (rest : List DrawCmd) :
    textCmds (DrawCmd.drawImage b x y :: rest) = textCmds rest := rfl

theorem textCmds_cons_fillRect (x y w h : ℚ) (g : GradientStyle) (rest : List DrawCmd) :
    textCmds (DrawCmd.fillRect x y w h g :: rest) = textCmds rest := rfl

theorem textCmds_cons_fillText (s : String) (x y fs : ℚ) (b : Bool) (c : String)
    (rest : List DrawCmd) :
    textCmds (DrawCmd.fillText s x y fs b c :: rest) = (s, x, y) :: textCmds rest := rfl

theorem textCmds_append (l₁ l₂ : List DrawCmd) :
    textCmds (l₁ ++ l₂) = textCmds l₁ ++ textCmds l₂ :=
  List.filterMap_append l₁ l₂ _

/-- The painted text lines of one compositor invocation, in draw order, with their
exact anchors and baselines: coordinates at `H - padding`; the reversed address lines
starting `smallLineHeight` above that and descending by `lineHeight` per index; the
person-and-device line; then the time line a further `smallLineHeight` plus the
`baseFontSize * 0.2` margin up.  All x-anchors are `W - padding`. -/
theorem textCmds_composite (measure : ℚ → Bool → String → ℚ)
    (fmtDate fmtTime : ℤ → String) (encode : Canvas → ℚ → String)
    (image : CapturedImage) (st : CompositorState) :
    textCmds (composite measure fmtDate fmtTime encode image st).1.canvas.cmds =
      (coordsStrOf image,
        (st.originalBitmap.width : ℚ) - padding st.originalBitmap.width,
        (st.originalBitmap.height : ℚ) - padding st.originalBitmap.width) ::
      ((List.enumFrom 0 (addressLinesOf measure st.originalBitmap.width image).reverse).map
        fun p =>
          (p.2, (st.originalBitmap.width : ℚ) - padding st.originalBitmap.width,
            (st.originalBitmap.height : ℚ) - padding st.originalBitmap.width -
              smallLineHeight st.originalBitmap.width -
              (p.1 : ℚ) * lineHeight st.originalBitmap.width)) ++
      [(personStrOf image ++ " | " ++ deviceStrOf image,
          (st.originalBitmap.width : ℚ) - padding st.originalBitmap.width,
          (st.originalBitmap.height : ℚ) - padding st.originalBitmap.width -
            smallLineHeight st.originalBitmap.width -
            ((addressLinesOf measure st.originalBitmap.width image).length : ℚ) *
              lineHeight st.originalBitmap.width),
        (fullTimeStrOf fmtDate fmtTime image,
          (st.originalBitmap.width : ℚ) - padding st.originalBitmap.width,
          (st.originalBitmap.height : ℚ) - padding st.originalBitmap.width -
            smallLineHeight st.originalBitmap.width -
            ((addressLinesOf measure st.originalBitmap.width image).length : ℚ) *
              lineHeight st.originalBitmap.width -
            smallLineHeight st.originalBitmap.width -
            baseFontSize st.originalBitmap.width * 0.2)] := by
  simp only [composite]
  rw [textCmds_cons_drawImage, textCmds_cons_fillRect, textCmds_cons_fillText,
    textCmds_append, addrCmds_snd]
  have h0 : (st.originalBitmap.height : ℚ) - padding st.originalBitmap.width -
      smallLineHeight st.originalBitmap.width =
      (st.originalBitmap.height : ℚ) - padding st.originalBitmap.width -
        smallLineHeight st.originalBitmap.width -
        ((0 : ℕ) : ℚ) * lineHeight st.originalBitmap.width := by
    push_cast; ring
  rw [h0, textCmds_addrCmds, textCmds_cons_fillText, textCmds_cons_fillText, textCmds_nil]
  rw [List.length_reverse]
  rw [show ((0 : ℕ) : ℚ) * lineHeight st.originalBitmap.width = 0 by push_cast; ring]
  rw [sub_zero, List.cons_append]


/-! ## Claims -/

theorem splitWords_ne_nil (s : String) : splitWords s ≠ [] :=
  splitWordsAux_ne_nil s.data []

/-- C9: For the empty input string, the greedy text wrapper returns exactly one line
containing the empty string, and does not crash (the zero-word case reduces to the
well-defined single-word base case). -/
theorem wrapText_empty (measure : ℚ → Bool → String → ℚ) (mw fs : ℚ) (b : Bool) :
    wrapText measure mw "" fs b = [""] := rfl

/-- C3: For every input string, font size and style flag, every line returned by the
greedy text wrapper has measured width at most `maxTextWidth`, except a line that is
a single (unsplit) word of the input — only such a line may exceed the budget. -/
theorem wrapText_width_le (measure : ℚ → Bool → String → ℚ) (mw : ℚ) (text : String)
    (fs : ℚ) (b : Bool) :
    ∀ l ∈ wrapText measure mw text fs b, measure fs b l ≤ mw ∨ l ∈ splitWords text := by
  intro l hl
  rw [wrapText] at hl
  generalize hsp : splitWords text = words at *
  cases words with
  | nil => cases hl
  | cons w ws =>
      rcases wrapGo_mem (measure fs b) mw w ws l hl with h | h | h
      · exact Or.inl h.le
      · rw [h]; exact Or.inr (List.mem_cons_self w ws)
      · exact Or.inr (List.mem_cons_of_mem w h)

/-- Witness for C3 at a concrete input: the wrapper at budget 5 over "aa bb cc" with
a length-based measure contains the line "aa", which satisfies the property. -/
theorem wrapText_width_le_witness :
    ("aa" ∈ wrapText (fun _ _ s => ((s.length : ℕ) : ℚ)) 5 "aa bb cc" 10 true) ∧
      ((fun (_ : ℚ) (_ : Bool) (s : String) => ((s.length : ℕ) : ℚ)) 10 true "aa" ≤ 5 ∨
        "aa" ∈ splitWords "aa bb cc") :=
  ⟨by decide,
    wrapText_width_le (fun _ _ s => ((s.length : ℕ) : ℚ)) 5 "aa bb cc" 10 true "aa"
      (by decide)⟩

/-- C4 counterexample: on the input "a  b" (two consecutive spaces) the rejoined
wrapper output is the original string "a  b", not its whitespace-normalized form
"a b" — so rejoining does not in general reproduce the whitespace-NORMALIZED input. -/
theorem wrapText_join_normalized_cex :
    joinSp (wrapText (fun _ _ s => ((s.length : ℕ) : ℚ)) 900 "a  b" 24 true) ≠
      specNormalizeWS "a  b" := by decide

/-- C4 (amended): re-joining all lines returned by the greedy text wrapper with
single spaces reproduces the original input string exactly (no characters dropped or
duplicated, and no whitespace normalization: consecutive spaces survive as empty
words). -/
theorem wrapText_join_eq (measure : ℚ → Bool → String → ℚ) (mw : ℚ) (text : String)
    (fs : ℚ) (b : Bool) :
    joinSp (wrapText measure mw text fs b) = text := by
  rw [wrapText]
  cases hsp : splitWords text with
  | nil => exact absurd hsp (splitWords_ne_nil text)
  | cons w ws =>
      rw [joinSp_wrapGo, ← hsp, joinSp_splitWords]

/-- C6: For every source width `W > 0` the layout deriver produces
`baseFontSize = max(24, floor(W * 0.035))`, `timeFontSize = floor(baseFontSize*1.5)`,
`smallFontSize = floor(baseFontSize*0.7)`, `padding = floor(baseFontSize*1.0)` and
`maxTextWidth = W * 0.9`; the floors are certified by the equivalent exact
natural-division values. -/
theorem layout_params_formula (W : ℕ) (h : 0 < W) :
    baseFontSize W = ((max 24 ⌊(W : ℚ) * 0.035⌋ : ℤ) : ℚ) ∧
    baseFontSize W = ((max 24 (W * 35 / 1000) : ℕ) : ℚ) ∧
    timeFontSize W = ((⌊baseFontSize W * 1.5⌋ : ℤ) : ℚ) ∧
    timeFontSize W = ((3 * max 24 (W * 35 / 1000) / 2 : ℕ) : ℚ) ∧
    smallFontSize W = ((⌊baseFontSize W * 0.7⌋ : ℤ) : ℚ) ∧
    smallFontSize W = ((max 24 (W * 35 / 1000) * 7 / 10 : ℕ) : ℚ) ∧
    padding W = ((⌊baseFontSize W * 1.0⌋ : ℤ) : ℚ) ∧
    padding W = baseFontSize W ∧
    maxWidth W = (W : ℚ) * 0.9 :=
  ⟨rfl, baseFontSize_eq W, rfl, timeFontSize_eq W, rfl, smallFontSize_eq W, rfl,
    padding_eq W, rfl⟩

/-- Witness for C6 at `W = 1000`. -/
theorem layout_params_formula_witness :
    0 < 1000 ∧
      (baseFontSize 1000 = ((max 24 ⌊(1000 : ℚ) * 0.035⌋ : ℤ) : ℚ) ∧
      baseFontSize 1000 = ((max 24 (1000 * 35 / 1000) : ℕ) : ℚ) ∧
      timeFontSize 1000 = ((⌊baseFontSize 1000 * 1.5⌋ : ℤ) : ℚ) ∧
      timeFontSize 1000 = ((3 * max 24 (1000 * 35 / 1000) / 2 : ℕ) : ℚ) ∧
      smallFontSize 1000 = ((⌊baseFontSize 1000 * 0.7⌋ : ℤ) : ℚ) ∧
      smallFontSize 1000 = ((max 24 (1000 * 35 / 1000) * 7 / 10 : ℕ) : ℚ) ∧
      padding 1000 = ((⌊baseFontSize 1000 * 1.0⌋ : ℤ) : ℚ) ∧
      padding 1000 = baseFontSize 1000 ∧
      maxWidth 1000 = (1000 : ℚ) * 0.9) :=
  ⟨by norm_num, layout_params_formula 1000 (by norm_num)⟩

/-- C7: Increasing the source width never decreases any derived font size or the
padding: every derived layout value is monotone non-decreasing in `W`. -/
theorem layout_params_monotone (W₁ W₂ : ℕ) (h₀ : 0 < W₁) (h : W₁ ≤ W₂) :
    baseFontSize W₁ ≤ baseFontSize W₂ ∧ timeFontSize W₁ ≤ timeFontSize W₂ ∧
      smallFontSize W₁ ≤ smallFontSize W₂ ∧ padding W₁ ≤ padding W₂ := by
  have hb : baseFontSizeNat W₁ ≤ baseFontSizeNat W₂ := by
    unfold baseFontSizeNat
    exact max_le_max (le_refl 24) (Nat.div_le_div_right (Nat.mul_le_mul_right 35 h))
  refine ⟨?_, ?_, ?_, ?_⟩
  · rw [baseFontSize_eq, baseFontSize_eq]; exact_mod_cast hb
  · rw [timeFontSize_eq, timeFontSize_eq]
    exact_mod_cast Nat.div_le_div_right (Nat.mul_le_mul_left 3 hb)
  · rw [smallFontSize_eq, smallFontSize_eq]
    exact_mod_cast Nat.div_le_div_right (Nat.mul_le_mul_right 7 hb)
  · rw [padding_eq, padding_eq, baseFontSize_eq, baseFontSize_eq]; exact_mod_cast hb

/-- Witness for C7 at `W₁ = 500 ≤ W₂ = 800`. -/
theorem layout_params_monotone_witness :
    0 < 500 ∧ 500 ≤ 800 ∧
      (baseFontSize 500 ≤ baseFontSize 800 ∧ timeFontSize 500 ≤ timeFontSize 800 ∧
        smallFontSize 500 ≤ smallFontSize 800 ∧ padding 500 ≤ padding 800) :=
  ⟨by norm_num, by norm_num, layout_params_monotone 500 800 (by norm_num) (by norm_num)⟩

/-- C2: The compositor is a pure function of the decoded input bitmap and the
metadata record: it never mutates the original bitmap (the state's bitmap component
is returned unchanged), and two invocations on the same bitmap and metadata produce
identical output canvases and identical encoded outputs, regardless of any prior
canvas contents. -/
theorem compositor_deterministic_no_mutation (measure : ℚ → Bool → String → ℚ)
    (fmtDate fmtTime : ℤ → String) (encode : Canvas → ℚ → String)
    (image : CapturedImage) (st₁ st₂ : CompositorState)
    (h : st₁.originalBitmap = st₂.originalBitmap) :
    (composite measure fmtDate fmtTime encode image st₁).1.originalBitmap =
      st₁.originalBitmap ∧
    (composite measure fmtDate fmtTime encode image st₁).1.canvas =
      (composite measure fmtDate fmtTime encode image st₂).1.canvas ∧
    (composite measure fmtDate fmtTime encode image st₁).2 =
      (composite measure fmtDate fmtTime encode image st₂).2 := by
  refine ⟨rfl, ?_, ?_⟩ <;> simp only [composite, h]

/-- Witness for C2: two states sharing a bitmap but with different prior canvas
contents. -/
theorem compositor_deterministic_no_mutation_witness :
    (⟨⟨2, 3, [7, 7, 7]⟩, ⟨0, 0, []⟩⟩ : CompositorState).originalBitmap =
      (⟨⟨2, 3, [7, 7, 7]⟩, ⟨9, 9, [DrawCmd.drawImage ⟨1, 1, []⟩ 0 0]⟩⟩ :
        CompositorState).originalBitmap ∧
    ((composite (fun _ _ s => ((s.length : ℕ) : ℚ)) (fun _ => "01/03/2024")
        (fun _ => "14:05") (fun _ _ => "data:img") ⟨"u", none, none, 0, "An", "iPhone"⟩
        ⟨⟨2, 3, [7, 7, 7]⟩, ⟨0, 0, []⟩⟩).1.originalBitmap = ⟨2, 3, [7, 7, 7]⟩ ∧
      (composite (fun _ _ s => ((s.length : ℕ) : ℚ)) (fun _ => "01/03/2024")
        (fun _ => "14:05") (fun _ _ => "data:img") ⟨"u", none, none, 0, "An", "iPhone"⟩
        ⟨⟨2, 3, [7, 7, 7]⟩, ⟨0, 0, []⟩⟩).1.canvas =
      (composite (fun _ _ s => ((s.length : ℕ) : ℚ)) (fun _ => "01/03/2024")
        (fun _ => "14:05") (fun _ _ => "data:img") ⟨"u", none, none, 0, "An", "iPhone"⟩
        ⟨⟨2, 3, [7, 7, 7]⟩, ⟨9, 9, [DrawCmd.drawImage ⟨1, 1, []⟩ 0 0]⟩⟩).1.canvas ∧
      (composite (fun _ _ s => ((s.length : ℕ) : ℚ)) (fun _ => "01/03/2024")
        (fun _ => "14:05") (fun _ _ => "data:img") ⟨"u", none, none, 0, "An", "iPhone"⟩
        ⟨⟨2, 3, [7, 7, 7]⟩, ⟨0, 0, []⟩⟩).2 =
      (composite (fun _ _ s => ((s.length : ℕ) : ℚ)) (fun _ => "01/03/2024")
        (fun _ => "14:05") (fun _ _ => "data:img") ⟨"u", none, none, 0, "An", "iPhone"⟩
        ⟨⟨2, 3, [7, 7, 7]⟩, ⟨9, 9, [DrawCmd.drawImage ⟨1, 1, []⟩ 0 0]⟩⟩).2) :=
  ⟨rfl, compositor_deterministic_no_mutation (fun _ _ s => ((s.length : ℕ) : ℚ))
    (fun _ => "01/03/2024") (fun _ => "14:05") (fun _ _ => "data:img")
    ⟨"u", none, none, 0, "An", "iPhone"⟩ ⟨⟨2, 3, [7, 7, 7]⟩, ⟨0, 0, []⟩⟩
    ⟨⟨2, 3, [7, 7, 7]⟩, ⟨9, 9, [DrawCmd.drawImage ⟨1, 1, []⟩ 0 0]⟩⟩ rfl⟩

/-- C10: When the record's location is present but its address is the EMPTY string
(a falsy value, not merely an absent one), the compositor still substitutes the fixed
placeholder text in the address slot. -/
theorem address_placeholder_on_empty (image : CapturedImage) (lat lng acc : ℚ)
    (ts : ℤ) (h : image.location = some ⟨lat, lng, acc, ts, some ""⟩) :
    addressStrOf image = "Đang cập nhật địa chỉ..." := by
  rw [addressStrOf, h]
  rfl

/-- Witness for C10 at a concrete record with `address = some ""`. -/
theorem address_placeholder_on_empty_witness :
    (⟨"u", none, some ⟨10, 106, 5, 0, some ""⟩, 0, "An", "iPhone"⟩ :
      CapturedImage).location = some ⟨10, 106, 5, 0, some ""⟩ ∧
    addressStrOf ⟨"u", none, some ⟨10, 106, 5, 0, some ""⟩, 0, "An", "iPhone"⟩ =
      "Đang cập nhật địa chỉ..." :=
  ⟨rfl, address_placeholder_on_empty
    ⟨"u", none, some ⟨10, 106, 5, 0, some ""⟩, 0, "An", "iPhone"⟩ 10 106 5 0 rfl⟩

/-- With a measure constantly below the budget, the wrap loop emits one single line. -/
theorem wrapGo_const_length (x mw : ℚ) (h : x < mw) (c : String) (ws : List String) :
    (wrapGo (fun _ => x) mw c ws).length = 1 := by
  induction ws generalizing c with
  | nil => rfl
  | cons w rest ih => rw [wrapGo, if_pos h]; exact ih _

/-- C8: With location present the coordinates line is the latitude to 6 decimal
places, ", ", then the longitude to 6 decimal places; with location absent it is the
empty string; in both cases the panel height reserves the coordinates slot
(`smallLineHeight`), so records with equally many wrapped address lines get the same
computed panel height whether or not location is present. -/
theorem coords_format_and_height_slot (measure : ℚ → Bool → String → ℚ) (W : ℕ)
    (img₁ img₂ : CapturedImage) (loc : GeoLocation)
    (h₁ : img₁.location = some loc) (h₂ : img₂.location = none)
    (hn : (addressLinesOf measure W img₁).length =
      (addressLinesOf measure W img₂).length) :
    coordsStrOf img₁ = toFixed6 loc.lat ++ ", " ++ toFixed6 loc.lng ∧
    coordsStrOf img₂ = "" ∧
    totalTextHeight W (addressLinesOf measure W img₁).length =
      (timeFontSize W * 1.4) + smallLineHeight W +
        (((addressLinesOf measure W img₁).length : ℕ) : ℚ) * lineHeight W +
        smallLineHeight W + padding W * 2 ∧
    totalTextHeight W (addressLinesOf measure W img₁).length =
      totalTextHeight W (addressLinesOf measure W img₂).length := by
  refine ⟨by rw [coordsStrOf, h₁], by rw [coordsStrOf, h₂], rfl, by rw [hn]⟩

/-- Witness for C8 at `W = 2` with a constant-zero measure: the record with location
and the one-word address "X" wraps to one line, as does the placeholder for the
location-less record, and the theorem applies. -/
theorem coords_format_and_height_slot_witness :
    (⟨"u", none, some ⟨10.762622, 106.660172, 5, 0, some "X"⟩, 0, "An", "iPhone"⟩ :
        CapturedImage).location = some ⟨10.762622, 106.660172, 5, 0, some "X"⟩ ∧
    (⟨"u", none, none, 0, "An", "iPhone"⟩ : CapturedImage).location = none ∧
    (addressLinesOf (fun _ _ _ => (0 : ℚ)) 2
        ⟨"u", none, some ⟨10.762622, 106.660172, 5, 0, some "X"⟩, 0, "An", "iPhone"⟩).length =
      (addressLinesOf (fun _ _ _ => (0 : ℚ)) 2
        ⟨"u", none, none, 0, "An", "iPhone"⟩).length ∧
    (coordsStrOf ⟨"u", none, some ⟨10.762622, 106.660172, 5, 0, some "X"⟩, 0, "An", "iPhone"⟩ =
        toFixed6 (10.762622 : ℚ) ++ ", " ++ toFixed6 (106.660172 : ℚ) ∧
      coordsStrOf ⟨"u", none, none, 0, "An", "iPhone"⟩ = "" ∧
      totalTextHeight 2 (addressLinesOf (fun _ _ _ => (0 : ℚ)) 2
          ⟨"u", none, some ⟨10.762622, 106.660172, 5, 0, some "X"⟩, 0, "An", "iPhone"⟩).length =
        (timeFontSize 2 * 1.4) + smallLineHeight 2 +
          (((addressLinesOf (fun _ _ _ => (0 : ℚ)) 2
            ⟨"u", none, some ⟨10.762622, 106.660172, 5, 0, some "X"⟩, 0, "An", "iPhone"⟩).length : ℕ) : ℚ) *
            lineHeight 2 + smallLineHeight 2 + padding 2 * 2 ∧
      totalTextHeight 2 (addressLinesOf (fun _ _ _ => (0 : ℚ)) 2
          ⟨"u", none, some ⟨10.762622, 106.660172, 5, 0, some "X"⟩, 0, "An", "iPhone"⟩).length =
        totalTextHeight 2 (addressLinesOf (fun _ _ _ => (0 : ℚ)) 2
          ⟨"u", none, none, 0, "An", "iPhone"⟩).length) := by
  have e₁ : (addressLinesOf (fun _ _ _ => (0 : ℚ)) 2
      ⟨"u", none, some ⟨10.762622, 106.660172, 5, 0, some "X"⟩, 0, "An", "iPhone"⟩).length = 1 :=
    rfl
  have e₂ : (addressLinesOf (fun _ _ _ => (0 : ℚ)) 2
      ⟨"u", none, none, 0, "An", "iPhone"⟩).length = 1 := by
    show (wrapGo (fun _ => (0 : ℚ)) (maxWidth 2) "Đang" ["cập", "nhật", "địa", "chỉ..."]).length = 1
    exact wrapGo_const_length 0 (maxWidth 2) (by norm_num [maxWidth]) _ _
  exact ⟨rfl, rfl, e₁.trans e₂.symm,
    coords_format_and_height_slot (fun _ _ _ => (0 : ℚ)) 2
      ⟨"u", none, some ⟨10.762622, 106.660172, 5, 0, some "X"⟩, 0, "An", "iPhone"⟩
      ⟨"u", none, none, 0, "An", "iPhone"⟩ ⟨10.762622, 106.660172, 5, 0, some "X"⟩
      rfl rfl (e₁.trans e₂.symm)⟩

theorem baseFontSize_nonneg (W : ℕ) : 0 ≤ baseFontSize W :=
  le_trans (by norm_num) (baseFontSize_ge W)

theorem timeFontSize_nonneg (W : ℕ) : 0 ≤ timeFontSize W := by
  rw [timeFontSize_eq]; positivity

theorem smallFontSize_nonneg (W : ℕ) : 0 ≤ smallFontSize W := by
  rw [smallFontSize_eq]; positivity

theorem lineHeight_nonneg (W : ℕ) : 0 ≤ lineHeight W :=
  mul_nonneg (baseFontSize_nonneg W) (by norm_num)

theorem smallLineHeight_nonneg (W : ℕ) : 0 ≤ smallLineHeight W :=
  mul_nonneg (smallFontSize_nonneg W) (by norm_num)

theorem padding_nonneg (W : ℕ) : 0 ≤ padding W := by
  rw [padding_eq]; exact baseFontSize_nonneg W

/-- C1 counterexample: at width 1000 with one wrapped address line, the painted
gradient panel height (`gradientHeight`, which sizes the `fillRect` of line 110) is
290.5, NOT the computed total text height 255.5 — the panel is one extra `padding`
taller, so it is not "sized to exactly this total height". -/
theorem gradient_panel_sized_cex : gradientHeight 1000 1 ≠ totalTextHeight 1000 1 := by
  norm_num [gradientHeight, totalTextHeight, timeFontSize, smallLineHeight,
    smallFontSize, lineHeight, padding, baseFontSize]

/-- C1 (amended): the computed `totalTextHeight` is the sum of the reserved line
heights (time at `timeFontSize*1.4`, person at `smallLineHeight`, each address line
at `lineHeight`, coordinates at `smallLineHeight`) plus `2 * padding`; the painted
gradient panel is sized to `totalTextHeight + padding` (one `padding` more than the
claimed exact total); the vertical span consumed by the drawn lines — from the
coordinates baseline at `H - padding` up to the top of the time line's reserved
height, including the `baseFontSize*0.2` margin — plus `2 * padding` equals
`totalTextHeight + 0.2 * baseFontSize`, which is at most the panel height (with
`0.8 * baseFontSize` slack), and hence no drawn line falls outside the painted
panel. -/
theorem panel_height_amended (measure : ℚ → Bool → String → ℚ)
    (fmtDate fmtTime : ℤ → String) (encode : Canvas → ℚ → String)
    (image : CapturedImage) (st : CompositorState) :
    totalTextHeight st.originalBitmap.width (addressLinesOf measure st.originalBitmap.width image).length =
      timeFontSize st.originalBitmap.width * 1.4 + smallLineHeight st.originalBitmap.width + (((addressLinesOf measure st.originalBitmap.width image).length : ℕ) : ℚ) * lineHeight st.originalBitmap.width + smallLineHeight st.originalBitmap.width + 2 * padding st.originalBitmap.width ∧
    (composite measure fmtDate fmtTime encode image st).1.canvas.cmds.get? 1 =
      some (DrawCmd.fillRect 0 ((st.originalBitmap.height : ℚ) - gradientHeight st.originalBitmap.width (addressLinesOf measure st.originalBitmap.width image).length) (st.originalBitmap.width : ℚ) (gradientHeight st.originalBitmap.width (addressLinesOf measure st.originalBitmap.width image).length)
        (gradStyle (st.originalBitmap.height : ℚ) (gradientHeight st.originalBitmap.width (addressLinesOf measure st.originalBitmap.width image).length))) ∧
    gradientHeight st.originalBitmap.width (addressLinesOf measure st.originalBitmap.width image).length = totalTextHeight st.originalBitmap.width (addressLinesOf measure st.originalBitmap.width image).length + padding st.originalBitmap.width ∧
    (textCmds (composite measure fmtDate fmtTime encode image st).1.canvas.cmds).getLast? =
      some (fullTimeStrOf fmtDate fmtTime image, (st.originalBitmap.width : ℚ) - padding st.originalBitmap.width, ((st.originalBitmap.height : ℚ) - padding st.originalBitmap.width - smallLineHeight st.originalBitmap.width - (((addressLinesOf measure st.originalBitmap.width image).length : ℕ) : ℚ) * lineHeight st.originalBitmap.width - smallLineHeight st.originalBitmap.width - baseFontSize st.originalBitmap.width * 0.2)) ∧
    ((st.originalBitmap.height : ℚ) - padding st.originalBitmap.width) - (((st.originalBitmap.height : ℚ) - padding st.originalBitmap.width - smallLineHeight st.originalBitmap.width - (((addressLinesOf measure st.originalBitmap.width image).length : ℕ) : ℚ) * lineHeight st.originalBitmap.width - smallLineHeight st.originalBitmap.width - baseFontSize st.originalBitmap.width * 0.2) - timeFontSize st.originalBitmap.width * 1.4) + 2 * padding st.originalBitmap.width =
      totalTextHeight st.originalBitmap.width (addressLinesOf measure st.originalBitmap.width image).length + 0.2 * baseFontSize st.originalBitmap.width ∧
    totalTextHeight st.originalBitmap.width (addressLinesOf measure st.originalBitmap.width image).length + 0.2 * baseFontSize st.originalBitmap.width ≤ gradientHeight st.originalBitmap.width (addressLinesOf measure st.originalBitmap.width image).length ∧
    ∀ t ∈ textCmds (composite measure fmtDate fmtTime encode image st).1.canvas.cmds,
      (st.originalBitmap.height : ℚ) - gradientHeight st.originalBitmap.width (addressLinesOf measure st.originalBitmap.width image).length ≤ t.2.2 - timeFontSize st.originalBitmap.width * 1.4 ∧ t.2.2 ≤ (st.originalBitmap.height : ℚ) - padding st.originalBitmap.width := by
  refine ⟨by rw [totalTextHeight]; ring, ?_, rfl, ?_, ?_, ?_, ?_⟩
  · simp only [composite]
    rfl
  · rw [textCmds_composite]
    rw [show ∀ (p t : String × ℚ × ℚ) (M : List (String × ℚ × ℚ)),
        M ++ [p, t] = (M ++ [p]) ++ [t] from by intros; simp]
    rw [List.getLast?_concat]
  · rw [totalTextHeight]; ring
  · rw [gradientHeight, padding_eq]
    have hB := baseFontSize_ge st.originalBitmap.width
    linarith
  · rw [textCmds_composite]
    intro t ht
    have hB := baseFontSize_ge st.originalBitmap.width
    have hP := padding_eq st.originalBitmap.width
    have hSLH := smallLineHeight_nonneg st.originalBitmap.width
    have hLH := lineHeight_nonneg st.originalBitmap.width
    have hT := timeFontSize_nonneg st.originalBitmap.width
    have hNL : 0 ≤ (((addressLinesOf measure st.originalBitmap.width image).length : ℕ) : ℚ) *
        lineHeight st.originalBitmap.width :=
      mul_nonneg (Nat.cast_nonneg _) hLH
    rcases List.mem_cons.mp ht with rfl | ht
    · constructor
      · simp only [gradientHeight, totalTextHeight]
        linarith
      · simp only []
        linarith
    rcases List.mem_append.mp ht with hm | hpt
    · obtain ⟨⟨k, s⟩, hk, rfl⟩ := List.mem_map.mp hm
      obtain ⟨-, hklt, -⟩ := List.mem_enumFrom hk
      rw [Nat.zero_add, List.length_reverse] at hklt
      have hkn : ((k : ℕ) : ℚ) * lineHeight st.originalBitmap.width ≤
          (((addressLinesOf measure st.originalBitmap.width image).length : ℕ) : ℚ) *
            lineHeight st.originalBitmap.width :=
        mul_le_mul_of_nonneg_right (by exact_mod_cast hklt.le) hLH
      have hk0 : 0 ≤ ((k : ℕ) : ℚ) * lineHeight st.originalBitmap.width :=
        mul_nonneg (Nat.cast_nonneg _) hLH
      constructor
      · simp only [gradientHeight, totalTextHeight]
        linarith
      · simp only []
        linarith
    rcases List.mem_cons.mp hpt with rfl | hpt
    · constructor
      · simp only [gradientHeight, totalTextHeight]
        linarith
      · simp only []
        linarith
    rcases List.mem_cons.mp hpt with rfl | hpt
    · constructor
      · simp only [gradientHeight, totalTextHeight]
        linarith
      · simp only []
        linarith
    cases hpt

/-- C5 counterexample: at width 1000 with a one-line address, the program draws the
(single, hence topmost) address line at baseline 1931.4 and the person-and-device
line at baseline 1885.9 — one `lineHeight` (45.5), NOT one `smallLineHeight` (33.6),
above which the claim would place it (1931.4 - smallLineHeight = 1897.8 ≠ 1885.9). -/
theorem draw_order_person_gap_cex :
    (textCmds (composite (fun _ _ s => ((s.length : ℕ) : ℚ)) (fun _ => "01/03/2024") (fun _ => "14:05") (fun _ _ => "data:img") ⟨"u", none, some ⟨10.762622, 106.660172, 5, 0, some "X"⟩, 0, "An", "iPhone"⟩ ⟨⟨1000, 2000, []⟩, ⟨0, 0, []⟩⟩).1.canvas.cmds).get? 1 = some ("X", 965, 1931.4) ∧
    (textCmds (composite (fun _ _ s => ((s.length : ℕ) : ℚ)) (fun _ => "01/03/2024") (fun _ => "14:05") (fun _ _ => "data:img") ⟨"u", none, some ⟨10.762622, 106.660172, 5, 0, some "X"⟩, 0, "An", "iPhone"⟩ ⟨⟨1000, 2000, []⟩, ⟨0, 0, []⟩⟩).1.canvas.cmds).get? 2 =
      some ("Người chụp: An | Thiết bị: iPhone", 965, 1885.9) ∧
    (1885.9 : ℚ) ≠ 1931.4 - smallLineHeight 1000 := by
  have ha : addressLinesOf (fun _ _ s => ((s.length : ℕ) : ℚ)) 1000 ⟨"u", none, some ⟨10.762622, 106.660172, 5, 0, some "X"⟩, 0, "An", "iPhone"⟩ = ["X"] := rfl
  have hm := textCmds_composite (fun _ _ s => ((s.length : ℕ) : ℚ)) (fun _ => "01/03/2024") (fun _ => "14:05") (fun _ _ => "data:img") ⟨"u", none, some ⟨10.762622, 106.660172, 5, 0, some "X"⟩, 0, "An", "iPhone"⟩ ⟨⟨1000, 2000, []⟩, ⟨0, 0, []⟩⟩
  refine ⟨?_, ?_, ?_⟩
  · rw [hm]
    simp only [ha, List.reverse_cons, List.reverse_nil, List.nil_append, List.enumFrom,
      List.map_cons, List.map_nil, List.cons_append, List.get?_cons_succ,
      List.get?_cons_zero, List.singleton_append, List.length_cons, List.length_nil,
      Option.some.injEq, Prod.mk.injEq]
    norm_num [padding, smallLineHeight, smallFontSize, lineHeight, baseFontSize]
  · rw [hm]
    simp only [ha, List.reverse_cons, List.reverse_nil, List.nil_append, List.enumFrom,
      List.map_cons, List.map_nil, List.cons_append, List.get?_cons_succ,
      List.get?_cons_zero, List.singleton_append, List.length_cons, List.length_nil,
      Option.some.injEq, Prod.mk.injEq]
    refine ⟨by decide, ?_, ?_⟩ <;>
      norm_num [padding, smallLineHeight, smallFontSize, lineHeight, baseFontSize]
  · norm_num [smallLineHeight, smallFontSize, baseFontSize]

/-- C5 (amended): the compositor draws the text lines bottom-up in exactly this
order and position: the coordinates line at baseline `H - padding`; the wrapped
address lines in reverse order (last wrapped line lowest), the lowest one
`smallLineHeight` above the coordinates baseline and each subsequent one `lineHeight`
above the previous; the combined "person | device" line one `lineHeight` (not
`smallLineHeight`) above the topmost address line; and the time/date line topmost,
one `smallLineHeight` plus the extra `baseFontSize * 0.2` margin above the person
line; all lines right-aligned to `x = W - padding`. -/
theorem draw_order_amended (measure : ℚ → Bool → String → ℚ)
    (fmtDate fmtTime : ℤ → String) (encode : Canvas → ℚ → String)
    (image : CapturedImage) (st : CompositorState) :
    textCmds (composite measure fmtDate fmtTime encode image st).1.canvas.cmds =
      (coordsStrOf image,
        (st.originalBitmap.width : ℚ) - padding st.originalBitmap.width,
        (st.originalBitmap.height : ℚ) - padding st.originalBitmap.width) ::
      ((List.enumFrom 0 (addressLinesOf measure st.originalBitmap.width image).reverse).map
        fun p =>
          (p.2, (st.originalBitmap.width : ℚ) - padding st.originalBitmap.width,
            (st.originalBitmap.height : ℚ) - padding st.originalBitmap.width -
              smallLineHeight st.originalBitmap.width -
              (p.1 : ℚ) * lineHeight st.originalBitmap.width)) ++
      [(personStrOf image ++ " | " ++ deviceStrOf image,
          (st.originalBitmap.width : ℚ) - padding st.originalBitmap.width,
          (st.originalBitmap.height : ℚ) - padding st.originalBitmap.width -
            smallLineHeight st.originalBitmap.width -
            ((addressLinesOf measure st.originalBitmap.width image).length : ℚ) *
              lineHeight st.originalBitmap.width),
        (fullTimeStrOf fmtDate fmtTime image,
          (st.originalBitmap.width : ℚ) - padding st.originalBitmap.width,
          (st.originalBitmap.height : ℚ) - padding st.originalBitmap.width -
            smallLineHeight st.originalBitmap.width -
            ((addressLinesOf measure st.originalBitmap.width image).length : ℚ) *
              lineHeight st.originalBitmap.width -
            smallLineHeight st.originalBitmap.width -
            baseFontSize st.originalBitmap.width * 0.2)] ∧
    ∀ t ∈ textCmds (composite measure fmtDate fmtTime encode image st).1.canvas.cmds,
      t.2.1 = (st.originalBitmap.width : ℚ) - padding st.originalBitmap.width := by
  refine ⟨textCmds_composite measure fmtDate fmtTime encode image st, ?_⟩
  rw [textCmds_composite]
  intro t ht
  rcases List.mem_cons.mp ht with rfl | ht
  · rfl
  rcases List.mem_append.mp ht with hm | hpt
  · obtain ⟨p, -, rfl⟩ := List.mem_map.mp hm
    rfl
  rcases List.mem_cons.mp hpt with rfl | hpt
  · rfl
  rcases List.mem_cons.mp hpt with rfl | hpt
  · rfl
  cases hpt
